import Mathlib

/-!
# Verification of the smart_shuffler reconciliation core

Shallow embedding of the playlist reconciliation/matching/batching core of the
smart_shuffler repository, together with proofs of the spec claims about it.

The network is modelled by pure oracles: a paginated endpoint is a list of page
responses served in order, and every mutating or searching call is a function
from the 0-based call index (the position of the request in the strictly
sequential call sequence of the operation) to the response the environment
returns, where a thrown request is an `Except.error`.
-/

namespace SmartShuffler

/-! ## Batcher: `addTracksToPlaylist` (src/src/services/spotifyService.js, lines 159-195)

The JS loop is `for (let i = 0; i < uris.length; i += chunkSize)` with
`chunk = uris.slice(i, i + chunkSize)` and `chunkSize = 100`; each chunk is
POSTed, a failing response throws an `Error` naming the 0-based chunk index
`i / chunkSize`, and a succeeding response overwrites `snapshotId` with the
returned `snapshot_id`. -/

/-- Structural engine for `chunksOf`: the fuel bounds the number of chunks
still to be produced (one chunk consumes at least one element, so the length of
the remaining list is always enough fuel). -/
def chunksOfFuel (sz : Nat) : Nat → List α → List (List α)
  | _, [] => []
  | 0, _ :: _ => []
  | f + 1, x :: xs => ((x :: xs).take sz) :: chunksOfFuel sz f ((x :: xs).drop sz)

/-- `chunksOf sz l` is the list of slices `l.slice(i, i + sz)` for
`i = 0, sz, 2*sz, ...`, mirroring the chunking loop of `addTracksToPlaylist`.
For `sz = 0` we return `[]`; the source only ever uses `sz = 100`. -/
def chunksOf (sz : Nat) (l : List α) : List (List α) :=
  match sz with
  | 0 => []
  | sz + 1 => chunksOfFuel (sz + 1) l.length l

/-- The failure thrown by the chunk loop: the message of the thrown `Error`
carries the 0-based index of the failing chunk and the cause. -/
structure ChunkFailure (ε : Type) where
  chunkIndex : Nat
  cause : ε
deriving Repr, DecidableEq

/-- The chunk loop of `addTracksToPlaylist`: submit each chunk in order to the
environment `apply` (indexed by the position of the request in the sequential
call order), stopping at the first failing chunk.  Returns the list of chunks
actually submitted together with either the failure or the last stored
`snapshot_id`. -/
def addChunksLoop (apply : Nat → List String → Except ε σ) :
    List (List String) → Nat → Option σ → List (List String) × Except (ChunkFailure ε) (Option σ)
  | [], _, snap => ([], .ok snap)
  | c :: rest, idx, snap =>
    match apply idx c with
    | .error e => ([c], .error ⟨idx, e⟩)
    | .ok tok =>
      let r := addChunksLoop apply rest (idx + 1) (some tok)
      (c :: r.1, r.2)

/-- `addTracksToPlaylist` from src/src/services/spotifyService.js: an empty id
list returns `snapshot_id: null` without any request; otherwise the ids are
mapped to `spotify:track:` URIs and submitted in chunks of 100. -/
def addTracksToPlaylist (apply : Nat → List String → Except ε σ) (trackIds : List String) :
    List (List String) × Except (ChunkFailure ε) (Option σ) :=
  if trackIds.isEmpty then ([], .ok none)
  else addChunksLoop apply (chunksOf 100 (trackIds.map (fun i => "spotify:track:" ++ i))) 0 none

/-- The URIs submitted for a given id list. -/
def trackUris (trackIds : List String) : List String :=
  trackIds.map (fun i => "spotify:track:" ++ i)

/-- Example environment: 250 track ids. -/
def exIds250 : List String := List.replicate 250 "t"

/-- Example environment where every request succeeds with the same snapshot. -/
def exApplyOk : Nat → List String → Except String String := fun _ _ => .ok "snap"

/-- Example environment where the first request succeeds and every later
request fails. -/
def exApplyFailSecond : Nat → List String → Except String String :=
  fun i _ => if i == 0 then .ok "token0" else .error "boom"

deriving instance DecidableEq for Except

/-! ## Paginator: `fetchPaginated` (src/src/services/spotifyService.js, lines 18-57)

The JS loop is `while (nextUrl) { res = fetch(nextUrl); if (!res.ok) throw ...;
items = items.concat(data.items || []); nextUrl = data.next; }`.  The endpoint
is modelled as the list of page responses the environment serves, in request
order. -/

/-- One page response: HTTP success flag and status, the `items` field (absent
or null modelled as `none`) and the `next` cursor. -/
structure Page (ι : Type) where
  ok : Bool
  status : Nat
  items : Option (List ι)
  next : Option String
deriving Repr, DecidableEq

/-- Default page used only to state positional hypotheses via `List.getD`. -/
def dpage : Page ι := ⟨false, 0, none, none⟩

/-- The `while (nextUrl)` loop of `fetchPaginated`: stop with the accumulator
when the cursor is absent, otherwise consume the next served response; a
non-success response makes the whole call fail with its status and no items.
`none` means the environment served fewer responses than the loop requested. -/
def fetchPaginatedLoop : List (Page ι) → Option String → List ι → Option (Except Nat (List ι))
  | _, none, acc => some (.ok acc)
  | [], some _, _ => none
  | p :: rest, some _, acc =>
    if p.ok then fetchPaginatedLoop rest p.next (acc ++ p.items.getD [])
    else some (.error p.status)

/-- `fetchPaginated` from src/src/services/spotifyService.js, started at the
initial URL with an empty accumulator. -/
def fetchPaginated (pages : List (Page ι)) (url : String) : Option (Except Nat (List ι)) :=
  fetchPaginatedLoop pages (some url) []

/-- The served responses form one chain: every page but the last carries a
`next` cursor, and the last does not. -/
def chainedPages : List (Page ι) → Bool
  | [] => true
  | [p] => p.next.isNone
  | p :: q :: rest => p.next.isSome && chainedPages (q :: rest)

/-- Concrete 3-page chain: two full pages of 2 items and a final short page of
1 item. -/
def exPages : List (Page Nat) :=
  [⟨true, 200, some [0, 1], some "pg2"⟩, ⟨true, 200, some [2, 3], some "pg3"⟩,
   ⟨true, 200, some [4], none⟩]

/-- Concrete chain whose second response is a 500 after a successful first
page. -/
def exPagesErr : List (Page Nat) :=
  [⟨true, 200, some [0, 1], some "pg2"⟩, ⟨false, 500, none, none⟩]

/-! ## Deduplicator: the `forEach` of `handleRemoveDuplicates`
(src/src/components/Spotify.jsx lines 535-554, identical loop in
src/unnamed/part_006 lines 332-339)

The loop keeps a `Set` of seen track ids; an entry with both a truthy
`track.id` and a truthy `track.uri` is flagged for removal when its id was
already seen and otherwise marks its id as seen; any other entry is skipped
entirely. -/

/-- A playlist track entry as the dedup loop sees it: the optional chain
`item?.track?.id` and `item?.track?.uri` (a missing `item`, missing `track`,
or missing field is `none`). -/
structure PlaylistItem where
  id : Option String
  uri : Option String
deriving Repr, DecidableEq

/-- JS truthiness of an optional string: present and non-empty. -/
def truthy (o : Option String) : Bool := o.getD "" != ""

/-- The guard `item?.track?.id && item?.track?.uri` of the dedup loop. -/
def hasTrackData (it : PlaylistItem) : Bool := truthy it.id && truthy it.uri

/-- The dedup `forEach` with its `seenTrackIds` set, returning the pair
(entries not flagged, entries flagged for removal); the second component is
the loop variable `duplicatesToRemove` (the source pushes each flagged
occurrence as `{uri}`; we keep the whole entry), the first is its occurrence
complement — the kept collection the spec calls the output-complement. -/
def dedupScan : List PlaylistItem → List String → List PlaylistItem × List PlaylistItem
  | [], _ => ([], [])
  | it :: rest, seen =>
    if hasTrackData it then
      if seen.contains (it.id.getD "") then
        let r := dedupScan rest seen
        (r.1, it :: r.2)
      else
        let r := dedupScan rest (it.id.getD "" :: seen)
        (it :: r.1, r.2)
    else
      let r := dedupScan rest seen
      (it :: r.1, r.2)

/-- The removal list computed by `handleRemoveDuplicates`. -/
def findDuplicates (items : List PlaylistItem) : List PlaylistItem := (dedupScan items []).2

/-- The kept occurrences: the input minus the computed removal list. -/
def keptItems (items : List PlaylistItem) : List PlaylistItem := (dedupScan items []).1

/-- First occurrence of id `idA` in the running example. -/
def entryA1 : PlaylistItem := ⟨some "idA", some "uriA1"⟩

/-- First occurrence of id `idB`. -/
def entryB1 : PlaylistItem := ⟨some "idB", some "uriB1"⟩

/-- Second occurrence of id `idA` (different uri, so the occurrences are
distinguishable). -/
def entryA2 : PlaylistItem := ⟨some "idA", some "uriA2"⟩

/-- Only occurrence of id `idC`. -/
def entryC1 : PlaylistItem := ⟨some "idC", some "uriC1"⟩

/-- Second occurrence of id `idB`. -/
def entryB2 : PlaylistItem := ⟨some "idB", some "uriB2"⟩

/-- The [A, B, A, C, B] example of the spec, by track id. -/
def exEntries : List PlaylistItem := [entryA1, entryB1, entryA2, entryC1, entryB2]

/-! ## TrackResolver loop: `handleCreatePlaylistFromMetadata`
(src/unnamed/part_006 lines 657-671) and the matching loop of
`handleMigratePlaylist` (src/unnamed/part_015 lines 101-130)

Both loops resolve descriptors one at a time with `await` inside `for...of`;
a throwing search is caught per iteration and the loop continues. -/

/-- A foreign track descriptor (one row of the metadata CSV). -/
structure TrackMeta where
  title : String
  artist : Option String
  album : Option String
deriving Repr, DecidableEq

/-- A track returned by the provider search. -/
structure FoundTrack where
  id : String
deriving Repr, DecidableEq

/-- JS `foundTrack?.id` truthiness: a present track whose id is non-empty. -/
def matchedId : Option FoundTrack → Option String
  | none => none
  | some t => if t.id == "" then none else some t.id

/-- Accumulators of the `handleCreatePlaylistFromMetadata` search loop,
plus the list of descriptors the loop actually processed. -/
structure ResolveState where
  attempted : List TrackMeta
  foundTrackIds : List String
  notFoundTracks : List TrackMeta
  searchErrors : Nat
deriving Repr, DecidableEq

/-- The `for (const metadata of csvMetadata)` loop of
`handleCreatePlaylistFromMetadata`: each descriptor is searched in order (the
oracle is indexed by call order); a throwing search increments `searchErrors`
and the loop continues; a result with a truthy id is pushed to
`foundTrackIds`; anything else is pushed to `notFoundTracks`. -/
def resolveTracks (search : Nat → TrackMeta → Except String (Option FoundTrack)) :
    List TrackMeta → Nat → ResolveState
  | [], _ => ⟨[], [], [], 0⟩
  | m :: rest, idx =>
    let r := resolveTracks search rest (idx + 1)
    match search idx m with
    | .error _ => ⟨m :: r.attempted, r.foundTrackIds, r.notFoundTracks, r.searchErrors + 1⟩
    | .ok res =>
      match matchedId res with
      | some i => ⟨m :: r.attempted, i :: r.foundTrackIds, r.notFoundTracks, r.searchErrors⟩
      | none => ⟨m :: r.attempted, r.foundTrackIds, m :: r.notFoundTracks, r.searchErrors⟩

/-- A track fetched from the source service in `handleMigratePlaylist`
(YouTube/Amazon shape): possibly missing title and artist. -/
structure SourceTrack where
  title : Option String
  artist : Option String
deriving Repr, DecidableEq

/-- The query `{title}` plus `artist` when truthy, as built by
`handleMigratePlaylist`. -/
structure SearchQuery where
  title : String
  artist : Option String
deriving Repr, DecidableEq

/-- Provider calls made by `handleMigratePlaylist`, in order. -/
inductive MigrateEffect
  | getUser
  | createDest
  | search
  | addTracks
deriving Repr, DecidableEq

/-- Accumulators of the matching loop of `handleMigratePlaylist`. -/
structure MigrateLoopState where
  trace : List MigrateEffect
  processed : List SourceTrack
  spotifyTrackIds : List String
  unmatchedTracks : List String
deriving Repr, DecidableEq

/-- Build the search query of `handleMigratePlaylist`. -/
def mkQuery (t : SourceTrack) : SearchQuery :=
  ⟨t.title.getD "", if truthy t.artist then t.artist else none⟩

/-- The `title (+ " by " + artist)` display entry pushed for an unmatched
track. -/
def byArtistTag (t : SourceTrack) : String :=
  t.title.getD "" ++ (if truthy t.artist then " by " ++ t.artist.getD "" else "")

/-- The `for (const track of tracks)` matching loop of
`handleMigratePlaylist`: a track without a truthy title is logged unmatched
and skipped without a search; a throwing search pushes a
`"... (Search Error)"` entry and the loop continues; a match pushes its id; an
unmatched result pushes a display entry unless an existing unmatched entry
already starts with the title (the source's double-logging guard). -/
def migrateSearchLoop (search : Nat → SearchQuery → Except String (Option FoundTrack)) :
    List SourceTrack → Nat → MigrateLoopState → MigrateLoopState
  | [], _, st => st
  | t :: rest, idx, st =>
    if truthy t.title = false then
      migrateSearchLoop search rest idx
        { st with processed := st.processed ++ [t],
                  unmatchedTracks := st.unmatchedTracks ++ ["(Track with missing title)"] }
    else
      let step : Option String × List String :=
        match search idx (mkQuery t) with
        | .error _ => (none, st.unmatchedTracks ++ [t.title.getD "" ++ " (Search Error)"])
        | .ok res => (matchedId res, st.unmatchedTracks)
      match step with
      | (some i, unm1) =>
        migrateSearchLoop search rest (idx + 1)
          { trace := st.trace ++ [.search], processed := st.processed ++ [t],
            spotifyTrackIds := st.spotifyTrackIds ++ [i], unmatchedTracks := unm1 }
      | (none, unm1) =>
        migrateSearchLoop search rest (idx + 1)
          { trace := st.trace ++ [.search], processed := st.processed ++ [t],
            spotifyTrackIds := st.spotifyTrackIds,
            unmatchedTracks :=
              if unm1.any (fun u => u.startsWith (t.title.getD "")) then unm1
              else unm1 ++ [byArtistTag t] }

/-- Outcome of `handleMigratePlaylist`, as observable by the user. -/
inductive MigrateOutcome
  | emptySource
  | failed (msg : String)
  | noMatches (unmatched : List String)
  | migrated (count : Nat) (unmatched : List String)
deriving Repr, DecidableEq

/-- `handleMigratePlaylist` from src/unnamed/part_015: fetch the source
tracks; if none, alert and return without creating anything; otherwise get the
Spotify user id, create the destination playlist eagerly, run the matching
loop over every source track, and add the matched ids (if any) to the new
playlist. -/
def handleMigratePlaylist (fetchRes : Except String (List SourceTrack))
    (getUser : Except String (Option String)) (create : Except String (Option String))
    (search : Nat → SearchQuery → Except String (Option FoundTrack))
    (add : List String → Except String Unit) : List MigrateEffect × MigrateOutcome :=
  match fetchRes with
  | .error e => ([], .failed e)
  | .ok tracks =>
    if tracks.isEmpty then ([], .emptySource)
    else
      match getUser with
      | .error e => ([.getUser], .failed e)
      | .ok none => ([.getUser], .failed "Could not get Spotify User ID. Is Spotify token valid?")
      | .ok (some _) =>
        match create with
        | .error e => ([.getUser, .createDest], .failed e)
        | .ok none => ([.getUser, .createDest], .failed "Failed to create new playlist on Spotify.")
        | .ok (some _) =>
          let st := migrateSearchLoop search tracks 0 ⟨[.getUser, .createDest], [], [], []⟩
          if st.spotifyTrackIds.isEmpty then (st.trace, .noMatches st.unmatchedTracks)
          else
            match add st.spotifyTrackIds with
            | .error e => (st.trace ++ [.addTracks], .failed e)
            | .ok _ => (st.trace ++ [.addTracks], .migrated st.spotifyTrackIds.length st.unmatchedTracks)

/-- The example descriptors of the resolver-isolation scenario. -/
def exD1 : TrackMeta := ⟨"Song A", none, none⟩

/-- Second descriptor; its search call throws. -/
def exD2 : TrackMeta := ⟨"Song B", none, none⟩

/-- Third descriptor; must still be attempted. -/
def exD3 : TrackMeta := ⟨"Song C", none, none⟩

/-- Search environment: the 1st call matches, the 2nd call throws, every later
call succeeds with no result. -/
def exSearchD2Throws : Nat → TrackMeta → Except String (Option FoundTrack) :=
  fun i _ =>
    if i == 0 then .ok (some ⟨"idD1"⟩)
    else if i == 1 then .error "network down"
    else .ok none

/-- The single source track of the zero-match migration scenario. -/
def exSrcTrack : SourceTrack := ⟨some "Song A", none⟩

/-- Search environment that always succeeds with no result. -/
def exSearchNone : Nat → SearchQuery → Except String (Option FoundTrack) := fun _ _ => .ok none

/-- Add environment that always succeeds. -/
def exAddOk : List String → Except String Unit := fun _ => .ok ()

/-! ## MoodShuffleOrchestrator: `handleShufflePlaylist`
(src/unnamed/part_006 lines 206-292)

Step 1 determines the mood (pre-selected label, or image data sent to the
prediction service); step 2 validates it against the fixed five-label list
after capitalizing (`charAt(0).toUpperCase() + slice(1).toLowerCase()`);
step 3 fetches the tracks and throws on an empty playlist; step 4 calls the
shuffle classifier; steps 5-7 extract the mood partition, create the
destination playlist and add the tracks. -/

/-- The `moodOrImageData` argument: a data-image string, a mood label, or
anything else (the source throws on the latter). -/
inductive MoodInput
  | image (data : String)
  | label (s : String)
  | missing
deriving Repr, DecidableEq

/-- The fixed mood enum of the source. -/
def validMoods : List String := ["Angry", "Calm", "Excited", "Happy", "Sad"]

/-- `predictedMood.charAt(0).toUpperCase() + predictedMood.slice(1).toLowerCase()`.
`Char.toUpper`/`Char.toLower` only act on basic latin letters, which covers the
five mood labels. -/
def capitalizeMood (s : String) : String :=
  match s.data with
  | [] => ""
  | c :: cs => ⟨c.toUpper :: cs.map Char.toLower⟩

/-- `s.toLowerCase()` on basic latin letters. -/
def lowerStr (s : String) : String := ⟨s.data.map Char.toLower⟩

/-- The step-2 validation: `validMoods.includes(capitalizedMood)`. -/
def isValidMood (s : String) : Bool := validMoods.contains (capitalizeMood s)

/-- One entry of a mood partition returned by the shuffle service. -/
structure MoodTrack where
  track_id : Option String
deriving Repr, DecidableEq

/-- The shuffle-service response: an optional `error` field and the optional
`mood_predictions` map from label to track list. -/
structure ShuffleResp where
  error : Option String
  mood_predictions : Option (List (String × List MoodTrack))
deriving Repr, DecidableEq

/-- External calls made by `handleShufflePlaylist`, in order. -/
inductive ShuffleEffect
  | predictMood
  | fetchTracks
  | classify
  | createDest
  | addTracks
deriving Repr, DecidableEq

/-- Outcome of `handleShufflePlaylist`: a thrown error, the graceful
no-tracks-for-mood exit (alert, no playlist created), or a created playlist
with its track count. -/
inductive ShuffleOutcome
  | failed (msg : String)
  | noMoodMatch
  | created (count : Nat)
deriving Repr, DecidableEq

/-- Steps 2-7 of `handleShufflePlaylist`, given the determined mood and the
effects already performed. -/
def shuffleWithMood (predictedMood : String) (tr0 : List ShuffleEffect)
    (fetchRes : Except String (List PlaylistItem))
    (classify : List String → String → Except String ShuffleResp)
    (create : Except String (Option String))
    (add : List String → Except String Unit) : List ShuffleEffect × ShuffleOutcome :=
  if isValidMood predictedMood = false then
    (tr0, .failed ("Invalid mood determined or provided: " ++ predictedMood))
  else
    match fetchRes with
    | .error e => (tr0 ++ [.fetchTracks], .failed e)
    | .ok trackItems =>
      if trackItems.isEmpty then
        (tr0 ++ [.fetchTracks], .failed "Playlist is empty, cannot shuffle.")
      else
        let trackIds := (trackItems.filterMap PlaylistItem.id).filter (fun s => s.trim != "")
        if trackIds.isEmpty then
          (tr0 ++ [.fetchTracks], .failed "No valid track IDs found in playlist.")
        else
          match classify trackIds (lowerStr (capitalizeMood predictedMood)) with
          | .error e => (tr0 ++ [.fetchTracks, .classify], .failed e)
          | .ok resp =>
            match resp.error with
            | some e =>
              (tr0 ++ [.fetchTracks, .classify], .failed ("Shuffle service error: " ++ e))
            | none =>
              match resp.mood_predictions with
              | none =>
                (tr0 ++ [.fetchTracks, .classify],
                  .failed "Shuffle service returned an invalid response format.")
              | some preds =>
                match preds.lookup (capitalizeMood predictedMood) with
                | none =>
                  (tr0 ++ [.fetchTracks, .classify],
                    .failed ("No tracks classified for mood: " ++ capitalizeMood predictedMood ++ "."))
                | some moodTracks =>
                  if moodTracks.isEmpty then (tr0 ++ [.fetchTracks, .classify], .noMoodMatch)
                  else
                    match create with
                    | .error e => (tr0 ++ [.fetchTracks, .classify, .createDest], .failed e)
                    | .ok none =>
                      (tr0 ++ [.fetchTracks, .classify, .createDest],
                        .failed "Failed to create the new shuffled playlist on Spotify.")
                    | .ok (some _) =>
                      let trackIdsOnly :=
                        (moodTracks.filterMap MoodTrack.track_id).filter (fun s => s != "")
                      if trackIdsOnly.isEmpty then
                        (tr0 ++ [.fetchTracks, .classify, .createDest],
                          .failed "Could not extract track IDs from shuffle service response.")
                      else
                        match add trackIdsOnly with
                        | .error e =>
                          (tr0 ++ [.fetchTracks, .classify, .createDest, .addTracks], .failed e)
                        | .ok _ =>
                          (tr0 ++ [.fetchTracks, .classify, .createDest, .addTracks],
                            .created trackIdsOnly.length)

/-- `handleShufflePlaylist` from src/unnamed/part_006: step 1 determines the
mood (a prediction failure is re-thrown after the branch), then steps 2-7
run. -/
def handleShufflePlaylist (moodOrImageData : MoodInput) (predict : Except String String)
    (fetchRes : Except String (List PlaylistItem))
    (classify : List String → String → Except String ShuffleResp)
    (create : Except String (Option String))
    (add : List String → Except String Unit) : List ShuffleEffect × ShuffleOutcome :=
  match moodOrImageData with
  | .missing => ([], .failed "No mood or image data provided for shuffle.")
  | .image _ =>
    match predict with
    | .error e => ([.predictMood], .failed e)
    | .ok m => shuffleWithMood m [.predictMood] fetchRes classify create add
  | .label m => shuffleWithMood m [] fetchRes classify create add

theorem chunksOfFuel_eq_chunksOf (sz : Nat) :
    ∀ (f : Nat) (l : List α), l.length ≤ f → chunksOfFuel (sz + 1) f l = chunksOf (sz + 1) l
  | _, [], _ => by rw [chunksOfFuel]; rw [chunksOf]; rw [chunksOfFuel]
  | 0, x :: xs, h => absurd h (by simp)
  | f + 1, x :: xs, h => by
    rw [chunksOfFuel]
    rw [chunksOf]
    show _ = chunksOfFuel (sz + 1) (xs.length + 1) (x :: xs)
    rw [chunksOfFuel]
    have hd : ((x :: xs).drop (sz + 1)).length ≤ f := by
      simp only [List.length_drop, List.length_cons]
      simp only [List.length_cons] at h
      omega
    have hd' : ((x :: xs).drop (sz + 1)).length ≤ xs.length := by
      simp only [List.length_drop, List.length_cons]; omega
    rw [chunksOfFuel_eq_chunksOf sz f ((x :: xs).drop (sz + 1)) hd,
      ← chunksOfFuel_eq_chunksOf sz xs.length ((x :: xs).drop (sz + 1)) hd']
termination_by f _ => f
decreasing_by all_goals (simp only [List.length_cons] at h ⊢; omega)

theorem chunksOf_nil (sz : Nat) : chunksOf sz ([] : List α) = [] := by
  cases sz with
  | zero => rw [chunksOf]
  | succ n => rw [chunksOf]; rw [chunksOfFuel]

theorem chunksOf_cons (sz : Nat) (x : α) (xs : List α) :
    chunksOf (sz + 1) (x :: xs) =
      ((x :: xs).take (sz + 1)) :: chunksOf (sz + 1) ((x :: xs).drop (sz + 1)) := by
  show chunksOfFuel (sz + 1) (xs.length + 1) (x :: xs) = _
  rw [chunksOfFuel]
  rw [chunksOfFuel_eq_chunksOf sz xs.length ((x :: xs).drop (sz + 1))
    (by simp only [List.length_drop, List.length_cons]; omega)]

/-- The chunks are contiguous slices in original order: flattening them
recovers the input list. -/
theorem chunksOf_flatten (sz : Nat) : (l : List α) → (chunksOf (sz + 1) l).flatten = l
  | [] => by simp [chunksOf_nil]
  | x :: xs => by
    rw [chunksOf_cons, List.flatten_cons, chunksOf_flatten sz ((x :: xs).drop (sz + 1)),
      List.take_append_drop]
termination_by l => l.length
decreasing_by simp [List.length_drop]; omega

/-- Every chunk has at most `sz + 1` elements. -/
theorem chunksOf_length_le (sz : Nat) : (l : List α) → ∀ c ∈ chunksOf (sz + 1) l, c.length ≤ sz + 1
  | [] => by simp [chunksOf_nil]
  | x :: xs => by
    rw [chunksOf_cons]
    intro c hc
    rcases List.mem_cons.mp hc with h | h
    · subst h; exact le_trans (List.length_take_le _ _) (le_refl _)
    · exact chunksOf_length_le sz ((x :: xs).drop (sz + 1)) c h
termination_by l => l.length
decreasing_by simp [List.length_drop]; omega

/-- If every request succeeds, the loop submits exactly the chunk list, in
order, and returns the snapshot of the last chunk. -/
theorem addChunksLoop_calls_of_ok (apply : Nat → List String → Except ε σ) :
    (chunks : List (List String)) → (idx : Nat) → (snap : Option σ) →
    (∀ j c, (apply j c).isOk = true) →
    (addChunksLoop apply chunks idx snap).1 = chunks
  | [], _, _, _ => rfl
  | c :: rest, idx, snap, h => by
    have hc := h idx c
    rw [addChunksLoop]
    match he : apply idx c with
    | .error e => rw [he] at hc; simp [Except.isOk, Except.toBool] at hc
    | .ok tok =>
      simp only []
      rw [addChunksLoop_calls_of_ok apply rest (idx + 1) (some tok) h]

/-- If the requests for the first `k` chunks succeed and the request for chunk
`k` fails, the loop submits exactly the chunks up to and including the failing
one, and the result is the failure that names the 0-based index of the failing
chunk.  The snapshot of the last successful chunk is not part of the result. -/
theorem addChunksLoop_fail (apply : Nat → List String → Except ε σ) :
    (chunks : List (List String)) → (idx : Nat) → (snap : Option σ) → (k : Nat) → (e : ε) →
    k < chunks.length →
    (∀ j, j < k → (apply (idx + j) (chunks.getD j [])).isOk = true) →
    apply (idx + k) (chunks.getD k []) = .error e →
    addChunksLoop apply chunks idx snap = (chunks.take (k + 1), .error ⟨idx + k, e⟩)
  | [], _, _, k, _, hk, _, _ => absurd hk (by simp)
  | c :: rest, idx, snap, 0, e, _, _, hfail => by
    rw [addChunksLoop]
    rw [Nat.add_zero] at hfail
    simp only [List.getD_cons_zero] at hfail
    rw [hfail]
    simp
  | c :: rest, idx, snap, k + 1, e, hk, hok, hfail => by
    have h0 := hok 0 (Nat.succ_pos k)
    rw [Nat.add_zero] at h0
    simp only [List.getD_cons_zero] at h0
    rw [addChunksLoop]
    match he : apply idx c with
    | .error e0 => rw [he] at h0; simp [Except.isOk, Except.toBool] at h0
    | .ok tok =>
      simp only []
      have ih := addChunksLoop_fail apply rest (idx + 1) (some tok) k e
        (by simpa using Nat.lt_of_succ_lt_succ hk)
        (fun j hj => by
          have := hok (j + 1) (Nat.succ_lt_succ hj)
          simpa [Nat.add_assoc, Nat.add_comm 1 j] using this)
        (by
          have := hfail
          simpa [Nat.add_assoc, Nat.add_comm 1 k] using this)
      rw [ih]
      simp [List.take_succ_cons, Nat.add_assoc, Nat.add_comm 1 k]

set_option maxRecDepth 4000 in
/-- C2: `addTracksToPlaylist` splits the URI list into contiguous chunks of at
most 100 in original order and submits them sequentially: when every request
succeeds, the submitted request sequence is exactly the chunk decomposition of
the input (whose concatenation in order is the input and whose chunks have at
most 100 elements); in particular 250 items are submitted as exactly 3 calls of
sizes [100, 100, 50], in that order. -/
theorem addTracksToPlaylist_chunking :
    (∀ {ε σ : Type} (apply : Nat → List String → Except ε σ) (trackIds : List String),
      trackIds ≠ [] → (∀ j c, (apply j c).isOk = true) →
      (addTracksToPlaylist apply trackIds).1 = chunksOf 100 (trackUris trackIds) ∧
      (chunksOf 100 (trackUris trackIds)).flatten = trackUris trackIds ∧
      (∀ c ∈ chunksOf 100 (trackUris trackIds), c.length ≤ 100)) ∧
    (addTracksToPlaylist exApplyOk exIds250).1.map List.length = [100, 100, 50] := by
  constructor
  · intro ε σ apply trackIds hne hok
    refine ⟨?_, chunksOf_flatten 99 _, chunksOf_length_le 99 _⟩
    rw [addTracksToPlaylist, if_neg (by simpa using hne)]
    exact addChunksLoop_calls_of_ok apply _ 0 none hok
  · decide

/-- Witness for `addTracksToPlaylist_chunking` at 250 concrete items. -/
theorem addTracksToPlaylist_chunking_witness :
    (addTracksToPlaylist exApplyOk exIds250).1 = chunksOf 100 (trackUris exIds250) :=
  (addTracksToPlaylist_chunking.1 exApplyOk exIds250 (by decide) (fun _ _ => rfl)).1

set_option maxRecDepth 4000 in
/-- C1 (counterexample): 250 items form 3 chunks; the request for chunk 0
succeeds with snapshot `token0` and the request for chunk 1 fails.  The source
then throws the error naming chunk index 1: the call yields no `BatchResult`
and in particular no confirmation token — the snapshot of chunk 0, the last
successful chunk, is discarded, contradicting the claim that the operation
yields a `BatchResult` whose `confirmationToken` is the token of the last
chunk that succeeded. -/
theorem addTracksToPlaylist_failure_yields_no_token :
    (addTracksToPlaylist exApplyFailSecond exIds250).2 = .error ⟨1, "boom"⟩ ∧
    (addTracksToPlaylist exApplyFailSecond exIds250).2.isOk = false := by
  exact ⟨by decide, by decide⟩

/-- C1 (amended): on the first failing chunk `addTracksToPlaylist` stops
immediately — the chunks submitted are exactly the successful ones followed by
the failing one, so already-applied chunks are neither resubmitted nor rolled
back — and the call fails with an error naming the 0-based index of the
failing chunk (1 when the 2nd chunk fails); the confirmation token of the last
successful chunk is not returned, because on failure the call returns no
snapshot at all. -/
theorem addTracksToPlaylist_stops_at_first_failing_chunk
    {ε σ : Type} (apply : Nat → List String → Except ε σ) (trackIds : List String)
    (k : Nat) (e : ε)
    (hne : trackIds ≠ [])
    (hk : k < (chunksOf 100 (trackUris trackIds)).length)
    (hok : ∀ j, j < k → (apply j ((chunksOf 100 (trackUris trackIds)).getD j [])).isOk = true)
    (hfail : apply k ((chunksOf 100 (trackUris trackIds)).getD k []) = .error e) :
    addTracksToPlaylist apply trackIds =
      ((chunksOf 100 (trackUris trackIds)).take (k + 1), .error ⟨k, e⟩) := by
  rw [addTracksToPlaylist, if_neg (by simpa using hne)]
  have := addChunksLoop_fail apply (chunksOf 100 (trackUris trackIds)) 0 none k e hk
    (fun j hj => by simpa using hok j hj) (by simpa using hfail)
  simpa using this

set_option maxRecDepth 4000 in
/-- Witness for `addTracksToPlaylist_stops_at_first_failing_chunk`: with 250
items and the environment failing from the second request on, the submitted
chunks are exactly the first two and the failure names chunk index 1. -/
theorem addTracksToPlaylist_stops_at_first_failing_chunk_witness :
    (1 < (chunksOf 100 (trackUris exIds250)).length) ∧
    addTracksToPlaylist exApplyFailSecond exIds250 =
      ((chunksOf 100 (trackUris exIds250)).take 2, .error ⟨1, "boom"⟩) :=
  ⟨by decide, addTracksToPlaylist_stops_at_first_failing_chunk exApplyFailSecond exIds250 1 "boom"
    (by decide) (by decide) (by decide) (by decide)⟩

theorem fetchPaginatedLoop_ok :
    (pages : List (Page ι)) → (url : String) → (acc : List ι) →
    pages ≠ [] → chainedPages pages = true → (∀ p ∈ pages, p.ok = true) →
    fetchPaginatedLoop pages (some url) acc =
      some (.ok (acc ++ (pages.map (fun p => p.items.getD [])).flatten))
  | [], _, _, hne, _, _ => absurd rfl hne
  | [p], url, acc, _, hch, hok => by
    have hpok := hok p (List.mem_singleton.mpr rfl)
    have hnxt : p.next = none := by
      simpa [chainedPages, Option.isNone_iff_eq_none] using hch
    rw [fetchPaginatedLoop, if_pos hpok, hnxt]
    rw [fetchPaginatedLoop]
    simp
  | p :: q :: rest, url, acc, _, hch, hok => by
    have hpok := hok p (List.mem_cons_self _ _)
    simp only [chainedPages, Bool.and_eq_true] at hch
    obtain ⟨u, hu⟩ := Option.isSome_iff_exists.mp hch.1
    rw [fetchPaginatedLoop, if_pos hpok, hu]
    rw [fetchPaginatedLoop_ok (q :: rest) u (acc ++ p.items.getD [])
      (by simp) hch.2 (fun r hr => hok r (List.mem_cons_of_mem _ hr))]
    simp

theorem fetchPaginatedLoop_error :
    (pages : List (Page ι)) → (url : String) → (acc : List ι) → (k : Nat) →
    k < pages.length →
    (∀ j, j < k → (pages.getD j dpage).ok = true ∧ (pages.getD j dpage).next.isSome = true) →
    (pages.getD k dpage).ok = false →
    fetchPaginatedLoop pages (some url) acc = some (.error (pages.getD k dpage).status)
  | [], _, _, k, hk, _, _ => absurd hk (by simp)
  | p :: rest, url, acc, 0, _, _, hbad => by
    simp only [List.getD_cons_zero] at hbad ⊢
    rw [fetchPaginatedLoop, if_neg (by simp [hbad])]
  | p :: rest, url, acc, k + 1, hk, hgood, hbad => by
    have h0 := hgood 0 (Nat.succ_pos k)
    simp only [List.getD_cons_zero] at h0
    obtain ⟨u, hu⟩ := Option.isSome_iff_exists.mp h0.2
    simp only [List.getD_cons_succ] at hbad ⊢
    rw [fetchPaginatedLoop, if_pos h0.1, hu]
    exact fetchPaginatedLoop_error rest u (acc ++ p.items.getD []) k
      (by simpa using Nat.lt_of_succ_lt_succ hk)
      (fun j hj => by simpa using hgood (j + 1) (Nat.succ_lt_succ hj))
      hbad

/-- C5: the paginator returns the concatenation of the `items` of every served
page, in page order; on a chain of `K` well-formed pages where the first
`K - 1` pages have `N` items each and the last has `L ≤ N` items it returns
exactly `K*N - (N - L)` items; and if the first non-success response is served
at position `k` after `k` successful pages, the whole call fails with that
status and returns no items at all. -/
theorem fetchPaginated_complete_ordered_atomic :
    (∀ {ι : Type} (pages : List (Page ι)) (url : String),
      pages ≠ [] → chainedPages pages = true → (∀ p ∈ pages, p.ok = true) →
      fetchPaginated pages url = some (.ok ((pages.map (fun p => p.items.getD [])).flatten))) ∧
    (∀ {ι : Type} (pages : List (Page ι)) (url : String) (K N L : Nat),
      pages ≠ [] → chainedPages pages = true → (∀ p ∈ pages, p.ok = true) →
      pages.map (fun p => (p.items.getD []).length) = List.replicate (K - 1) N ++ [L] →
      1 ≤ K → L ≤ N →
      ∃ its, fetchPaginated pages url = some (.ok its) ∧ its.length = K * N - (N - L)) ∧
    (∀ {ι : Type} (pages : List (Page ι)) (url : String) (k : Nat),
      k < pages.length →
      (∀ j, j < k → (pages.getD j dpage).ok = true ∧ (pages.getD j dpage).next.isSome = true) →
      (pages.getD k dpage).ok = false →
      fetchPaginated pages url = some (.error (pages.getD k dpage).status)) := by
  refine ⟨?_, ?_, ?_⟩
  · intro ι pages url hne hch hok
    simpa using fetchPaginatedLoop_ok pages url [] hne hch hok
  · intro ι pages url K N L hne hch hok hlen hK hL
    refine ⟨(pages.map (fun p => p.items.getD [])).flatten,
      by simpa using fetchPaginatedLoop_ok pages url [] hne hch hok, ?_⟩
    have hsum : ((pages.map (fun p => p.items.getD [])).flatten).length
        = (pages.map (fun p => (p.items.getD []).length)).sum := by
      rw [List.length_flatten, List.map_map]
      rfl
    rw [hsum, hlen]
    obtain ⟨K0, rfl⟩ : ∃ K0, K = K0 + 1 := ⟨K - 1, by omega⟩
    rw [List.sum_append, List.sum_replicate, Nat.succ_mul]
    simp only [Nat.add_sub_cancel, smul_eq_mul, List.sum_cons, List.sum_nil]
    generalize K0 * N = M
    omega
  · intro ι pages url k hk hgood hbad
    exact fetchPaginatedLoop_error pages url [] k hk hgood hbad

/-- Witness for `fetchPaginated_complete_ordered_atomic`: the 3-page chain
yields the 5 items in page order (3*2 - (2-1) = 5), and the chain with a 500
on page 1 fails with status 500. -/
theorem fetchPaginated_complete_ordered_atomic_witness :
    (fetchPaginated exPages "pg1" = some (.ok [0, 1, 2, 3, 4]) ∧
      (∃ its, fetchPaginated exPages "pg1" = some (.ok its) ∧ its.length = 3 * 2 - (2 - 1))) ∧
    fetchPaginated exPagesErr "pg1" = some (.error 500) := by
  refine ⟨⟨?_, ?_⟩, ?_⟩
  · have h := fetchPaginated_complete_ordered_atomic.1 exPages "pg1"
      (by decide) (by decide) (by decide)
    simpa using h
  · exact fetchPaginated_complete_ordered_atomic.2.1 exPages "pg1" 3 2 1
      (by decide) (by decide) (by decide) (by decide) (by decide) (by decide)
  · have h := fetchPaginated_complete_ordered_atomic.2.2 exPagesErr "pg1" 1
      (by decide) (by decide) (by decide)
    simpa using h

/-- C9: a page with a successful status but an absent or null `items` field
contributes no items (via `data.items || []`) and does not abort the loop:
fetching continues at exactly that page's `next` cursor with the accumulator
unchanged. -/
theorem fetchPaginated_skips_missing_items {ι : Type} (p : Page ι) (rest : List (Page ι))
    (url : String) (acc : List ι) (hok : p.ok = true) (hit : p.items = none) :
    fetchPaginatedLoop (p :: rest) (some url) acc = fetchPaginatedLoop rest p.next acc := by
  rw [fetchPaginatedLoop, if_pos hok, hit]
  simp

/-- Witness for `fetchPaginated_skips_missing_items`: a successful page with no
`items` field followed by a page with two items yields just those two items. -/
theorem fetchPaginated_skips_missing_items_witness :
    fetchPaginatedLoop [(⟨true, 200, none, some "pg2"⟩ : Page Nat),
        ⟨true, 200, some [7, 9], none⟩] (some "pg1") [] =
      fetchPaginatedLoop [(⟨true, 200, some [7, 9], none⟩ : Page Nat)] (some "pg2") [] ∧
    fetchPaginated [(⟨true, 200, none, some "pg2"⟩ : Page Nat),
        ⟨true, 200, some [7, 9], none⟩] "pg1" = some (.ok [7, 9]) := by
  constructor
  · exact fetchPaginated_skips_missing_items ⟨true, 200, none, some "pg2"⟩
      [⟨true, 200, some [7, 9], none⟩] "pg1" [] rfl rfl
  · decide

theorem truthy_getD_inj {o o' : Option String} (h : truthy o = true) (h' : truthy o' = true)
    (he : o.getD "" = o'.getD "") : o = o' := by
  cases o with
  | none => simp [truthy] at h
  | some s =>
    cases o' with
    | none => simp [truthy] at h'
    | some s' => simpa using he

theorem mem_dedupScan_flagged :
    (items : List PlaylistItem) → (seen : List String) → (it : PlaylistItem) →
    it ∈ (dedupScan items seen).2 →
    hasTrackData it = true ∧
      (it.id.getD "" ∈ seen ∨
        ∃ k ∈ (dedupScan items seen).1, hasTrackData k = true ∧ k.id = it.id)
  | [], _, _, h => absurd h (by simp [dedupScan])
  | x :: rest, seen, it, h => by
    rw [dedupScan] at h ⊢
    by_cases hx : hasTrackData x = true
    · rw [if_pos hx] at h ⊢
      by_cases hc : seen.contains (x.id.getD "") = true
      · rw [if_pos hc] at h ⊢
        simp only [List.mem_cons] at h
        rcases h with rfl | h
        · exact ⟨hx, .inl (by simpa using hc)⟩
        · exact mem_dedupScan_flagged rest seen it h
      · rw [if_neg hc] at h ⊢
        have ih := mem_dedupScan_flagged rest (x.id.getD "" :: seen) it h
        refine ⟨ih.1, ?_⟩
        rcases ih.2 with hs | ⟨k, hk, hkd, hkid⟩
        · simp only [List.mem_cons] at hs
          rcases hs with he | hs
          · exact .inr ⟨x, List.mem_cons_self _ _, hx,
              (truthy_getD_inj (Bool.and_elim_left hx) (Bool.and_elim_left ih.1) he.symm).symm ▸ rfl⟩
          · exact .inl hs
        · exact .inr ⟨k, List.mem_cons_of_mem _ hk, hkd, hkid⟩
    · rw [if_neg hx] at h ⊢
      have ih := mem_dedupScan_flagged rest seen it h
      refine ⟨ih.1, ?_⟩
      rcases ih.2 with hs | ⟨k, hk, hkd, hkid⟩
      · exact .inl hs
      · exact .inr ⟨k, List.mem_cons_of_mem _ hk, hkd, hkid⟩

theorem mem_dedupScan_kept_of_first :
    (pre : List PlaylistItem) → (seen : List String) → (it : PlaylistItem) →
    (post : List PlaylistItem) →
    hasTrackData it = true → it.id.getD "" ∉ seen →
    (∀ p ∈ pre, ¬(hasTrackData p = true ∧ p.id = it.id)) →
    it ∈ (dedupScan (pre ++ it :: post) seen).1
  | [], seen, it, post, hd, hs, _ => by
    rw [List.nil_append, dedupScan, if_pos hd, if_neg (by simpa using hs)]
    exact List.mem_cons_self _ _
  | p :: pre, seen, it, post, hd, hs, hpre => by
    rw [List.cons_append, dedupScan]
    by_cases hp : hasTrackData p = true
    · rw [if_pos hp]
      by_cases hc : seen.contains (p.id.getD "") = true
      · rw [if_pos hc]
        exact mem_dedupScan_kept_of_first pre seen it post hd hs
          (fun q hq => hpre q (List.mem_cons_of_mem _ hq))
      · rw [if_neg hc]
        have hne : it.id.getD "" ∉ (p.id.getD "" :: seen) := by
          intro hmem
          simp only [List.mem_cons] at hmem
          rcases hmem with he | hmem
          · exact hpre p (List.mem_cons_self _ _)
              ⟨hp, truthy_getD_inj (Bool.and_elim_left hp) (Bool.and_elim_left hd) he.symm⟩
          · exact hs hmem
        exact List.mem_cons_of_mem _
          (mem_dedupScan_kept_of_first pre (p.id.getD "" :: seen) it post hd hne
            (fun q hq => hpre q (List.mem_cons_of_mem _ hq)))
    · rw [if_neg hp]
      exact List.mem_cons_of_mem _
        (mem_dedupScan_kept_of_first pre seen it post hd hs
          (fun q hq => hpre q (List.mem_cons_of_mem _ hq)))

theorem dedupScan_kept_rescan :
    (items : List PlaylistItem) → (seen : List String) →
    (dedupScan ((dedupScan items seen).1) seen).2 = []
  | [], _ => rfl
  | it :: rest, seen => by
    rw [dedupScan]
    by_cases hx : hasTrackData it = true
    · rw [if_pos hx]
      by_cases hc : seen.contains (it.id.getD "") = true
      · rw [if_pos hc]
        exact dedupScan_kept_rescan rest seen
      · rw [if_neg hc]
        show (dedupScan (it :: (dedupScan rest (it.id.getD "" :: seen)).1) seen).2 = []
        rw [dedupScan, if_pos hx, if_neg hc]
        exact dedupScan_kept_rescan rest (it.id.getD "" :: seen)
    · rw [if_neg hx]
      show (dedupScan (it :: (dedupScan rest seen).1) seen).2 = []
      rw [dedupScan, if_neg hx]
      exact dedupScan_kept_rescan rest seen

theorem dedupScan_partition :
    (items : List PlaylistItem) → (seen : List String) →
    List.Sublist (dedupScan items seen).1 items ∧ List.Sublist (dedupScan items seen).2 items ∧
      (dedupScan items seen).1.length + (dedupScan items seen).2.length = items.length
  | [], seen => by rw [dedupScan]; exact ⟨.refl _, .refl _, rfl⟩
  | it :: rest, seen => by
    rw [dedupScan]
    by_cases hx : hasTrackData it = true
    · rw [if_pos hx]
      by_cases hc : seen.contains (it.id.getD "") = true
      · rw [if_pos hc]
        have ih := dedupScan_partition rest seen
        refine ⟨ih.1.cons _, ih.2.1.cons₂ _, ?_⟩
        simp only [List.length_cons]
        omega
      · rw [if_neg hc]
        have ih := dedupScan_partition rest (it.id.getD "" :: seen)
        refine ⟨ih.1.cons₂ _, ih.2.1.cons _, ?_⟩
        simp only [List.length_cons]
        omega
    · rw [if_neg hx]
      have ih := dedupScan_partition rest seen
      refine ⟨ih.1.cons₂ _, ih.2.1.cons _, ?_⟩
      simp only [List.length_cons]
      omega

/-- C3: the dedup loop (a) skips an entry with missing/empty id or uri
entirely — it is kept verbatim and affects neither the seen set nor the
removal list; (b) every flagged entry is well-formed and shares its id with a
kept well-formed entry; (c) the first well-formed occurrence of an id is
always kept, never flagged; (d) on [A, B, A, C, B] by id, the removal list is
exactly [A(2nd), B(2nd)] and the kept list [A(1st), B(1st), C].  Determinism
is immediate: the embedding is a pure function of the entry list. -/
theorem findDuplicates_first_wins :
    (∀ (it : PlaylistItem) (rest : List PlaylistItem) (seen : List String),
      hasTrackData it = false →
      dedupScan (it :: rest) seen = (it :: (dedupScan rest seen).1, (dedupScan rest seen).2)) ∧
    (∀ (items : List PlaylistItem) (it : PlaylistItem), it ∈ findDuplicates items →
      hasTrackData it = true ∧
        ∃ k ∈ keptItems items, hasTrackData k = true ∧ k.id = it.id) ∧
    (∀ (pre : List PlaylistItem) (it : PlaylistItem) (post : List PlaylistItem),
      hasTrackData it = true →
      (∀ p ∈ pre, ¬(hasTrackData p = true ∧ p.id = it.id)) →
      it ∈ keptItems (pre ++ it :: post)) ∧
    (findDuplicates exEntries = [entryA2, entryB2] ∧
      keptItems exEntries = [entryA1, entryB1, entryC1]) := by
  refine ⟨?_, ?_, ?_, by decide, by decide⟩
  · intro it rest seen hx
    rw [dedupScan, if_neg (by simp [hx])]
  · intro items it h
    have hm := mem_dedupScan_flagged items [] it h
    refine ⟨hm.1, ?_⟩
    rcases hm.2 with hs | hk
    · exact absurd hs (by simp)
    · exact hk
  · intro pre it post hd hpre
    exact mem_dedupScan_kept_of_first pre [] it post hd (by simp) hpre

/-- Witness for `findDuplicates_first_wins` on the concrete [A, B, A, C, B]
example: the flagged second A has a kept entry with the same id, and the
single C — first of its id after [A, B, A] — is kept. -/
theorem findDuplicates_first_wins_witness :
    (hasTrackData entryA2 = true ∧
      ∃ k ∈ keptItems exEntries, hasTrackData k = true ∧ k.id = entryA2.id) ∧
    entryC1 ∈ keptItems ([entryA1, entryB1, entryA2] ++ entryC1 :: [entryB2]) := by
  constructor
  · exact findDuplicates_first_wins.2.1 exEntries entryA2 (by decide)
  · exact findDuplicates_first_wins.2.2.1 [entryA1, entryB1, entryA2] entryC1 [entryB2]
      (by decide) (by decide)

/-- C4: deduplication is idempotent — running the dedup loop on the kept
complement of its own removal list flags nothing further; moreover kept and
removed really partition the input: both are sublists of the input (original
order) and their lengths sum to the input length. -/
theorem findDuplicates_idempotent :
    (∀ items : List PlaylistItem, findDuplicates (keptItems items) = []) ∧
    (∀ items : List PlaylistItem,
      List.Sublist (keptItems items) items ∧ List.Sublist (findDuplicates items) items ∧
        (keptItems items).length + (findDuplicates items).length = items.length) := by
  constructor
  · intro items
    exact dedupScan_kept_rescan items []
  · intro items
    exact dedupScan_partition items []

theorem resolveTracks_attempted (search : Nat → TrackMeta → Except String (Option FoundTrack)) :
    (ds : List TrackMeta) → (idx : Nat) → (resolveTracks search ds idx).attempted = ds
  | [], _ => rfl
  | m :: rest, idx => by
    rw [resolveTracks]
    cases hs : search idx m with
    | error e => simp only [hs]; rw [resolveTracks_attempted search rest (idx + 1)]
    | ok res =>
      cases hm : matchedId res with
      | none => simp only [hs, hm]; rw [resolveTracks_attempted search rest (idx + 1)]
      | some i => simp only [hs, hm]; rw [resolveTracks_attempted search rest (idx + 1)]

theorem resolveTracks_outcome_count (search : Nat → TrackMeta → Except String (Option FoundTrack)) :
    (ds : List TrackMeta) → (idx : Nat) →
    (resolveTracks search ds idx).foundTrackIds.length +
      (resolveTracks search ds idx).notFoundTracks.length +
      (resolveTracks search ds idx).searchErrors = ds.length
  | [], _ => rfl
  | m :: rest, idx => by
    rw [resolveTracks]
    have ih := resolveTracks_outcome_count search rest (idx + 1)
    cases hs : search idx m with
    | error e => simp only [hs, List.length_cons]; omega
    | ok res =>
      cases hm : matchedId res with
      | none => simp only [hs, hm, List.length_cons]; omega
      | some i => simp only [hs, hm, List.length_cons]; omega

theorem migrateSearchLoop_processed (search : Nat → SearchQuery → Except String (Option FoundTrack)) :
    (ts : List SourceTrack) → (idx : Nat) → (st : MigrateLoopState) →
    (migrateSearchLoop search ts idx st).processed = st.processed ++ ts
  | [], _, st => by rw [migrateSearchLoop]; simp
  | t :: rest, idx, st => by
    rw [migrateSearchLoop]
    by_cases ht : truthy t.title = false
    · rw [if_pos ht]
      rw [migrateSearchLoop_processed search rest idx]
      simp
    · rw [if_neg ht]
      cases hs : search idx (mkQuery t) with
      | error e =>
        simp only [hs]
        rw [migrateSearchLoop_processed search rest (idx + 1)]
        simp
      | ok res =>
        cases hm : matchedId res with
        | none =>
          simp only [hs, hm]
          rw [migrateSearchLoop_processed search rest (idx + 1)]
          simp
        | some i =>
          simp only [hs, hm]
          rw [migrateSearchLoop_processed search rest (idx + 1)]
          simp

theorem migrateSearchLoop_trace (search : Nat → SearchQuery → Except String (Option FoundTrack)) :
    (ts : List SourceTrack) → (idx : Nat) → (st : MigrateLoopState) →
    ∃ tl, (migrateSearchLoop search ts idx st).trace = st.trace ++ tl ∧
      ∀ e ∈ tl, e = MigrateEffect.search
  | [], _, st => ⟨[], by rw [migrateSearchLoop]; simp, by simp⟩
  | t :: rest, idx, st => by
    rw [migrateSearchLoop]
    by_cases ht : truthy t.title = false
    · rw [if_pos ht]
      exact migrateSearchLoop_trace search rest idx _
    · rw [if_neg ht]
      cases hs : search idx (mkQuery t) with
      | error e =>
        simp only [hs]
        obtain ⟨tl, htl, hall⟩ := migrateSearchLoop_trace search rest (idx + 1)
          { trace := st.trace ++ [.search], processed := st.processed ++ [t],
            spotifyTrackIds := st.spotifyTrackIds,
            unmatchedTracks :=
              if (st.unmatchedTracks ++ [t.title.getD "" ++ " (Search Error)"]).any
                  (fun u => u.startsWith (t.title.getD "")) then
                st.unmatchedTracks ++ [t.title.getD "" ++ " (Search Error)"]
              else (st.unmatchedTracks ++ [t.title.getD "" ++ " (Search Error)"]) ++ [byArtistTag t] }
        refine ⟨MigrateEffect.search :: tl, ?_, ?_⟩
        · rw [htl]; simp
        · intro e he
          rcases List.mem_cons.mp he with rfl | he
          · rfl
          · exact hall e he
      | ok res =>
        cases hm : matchedId res with
        | none =>
          simp only [hs, hm]
          obtain ⟨tl, htl, hall⟩ := migrateSearchLoop_trace search rest (idx + 1)
            { trace := st.trace ++ [.search], processed := st.processed ++ [t],
              spotifyTrackIds := st.spotifyTrackIds,
              unmatchedTracks :=
                if st.unmatchedTracks.any (fun u => u.startsWith (t.title.getD "")) then
                  st.unmatchedTracks
                else st.unmatchedTracks ++ [byArtistTag t] }
          refine ⟨MigrateEffect.search :: tl, ?_, ?_⟩
          · rw [htl]; simp
          · intro e he
            rcases List.mem_cons.mp he with rfl | he
            · rfl
            · exact hall e he
        | some i =>
          simp only [hs, hm]
          obtain ⟨tl, htl, hall⟩ := migrateSearchLoop_trace search rest (idx + 1)
            { trace := st.trace ++ [.search], processed := st.processed ++ [t],
              spotifyTrackIds := st.spotifyTrackIds ++ [i],
              unmatchedTracks := st.unmatchedTracks }
          refine ⟨MigrateEffect.search :: tl, ?_, ?_⟩
          · rw [htl]; simp
          · intro e he
            rcases List.mem_cons.mp he with rfl | he
            · rfl
            · exact hall e he

/-- C6: resolution is isolated per descriptor.  In the
`handleCreatePlaylistFromMetadata` loop every descriptor is attempted in order
regardless of earlier failures and receives exactly one outcome (matched,
unmatched, or search error), so the outcome counts sum to the number of
descriptors; the `handleMigratePlaylist` matching loop likewise processes
every source track.  On [D1, D2, D3] where the 2nd search call throws, D1 is
matched, D2 is the one search error, and D3 is still attempted and comes back
unmatched. -/
theorem resolveTracks_isolated :
    (∀ (search : Nat → TrackMeta → Except String (Option FoundTrack))
       (ds : List TrackMeta) (idx : Nat),
      (resolveTracks search ds idx).attempted = ds ∧
      (resolveTracks search ds idx).foundTrackIds.length +
        (resolveTracks search ds idx).notFoundTracks.length +
        (resolveTracks search ds idx).searchErrors = ds.length) ∧
    (∀ (search : Nat → SearchQuery → Except String (Option FoundTrack))
       (ts : List SourceTrack) (idx : Nat) (st : MigrateLoopState),
      (migrateSearchLoop search ts idx st).processed = st.processed ++ ts) ∧
    resolveTracks exSearchD2Throws [exD1, exD2, exD3] 0 =
      ⟨[exD1, exD2, exD3], ["idD1"], [exD3], 1⟩ := by
  refine ⟨?_, ?_, by decide⟩
  · intro search ds idx
    exact ⟨resolveTracks_attempted search ds idx, resolveTracks_outcome_count search ds idx⟩
  · intro search ts idx st
    exact migrateSearchLoop_processed search ts idx st

/-- Unfolding of `handleMigratePlaylist` on a non-empty source with a valid
user and a successfully created destination. -/
theorem handleMigratePlaylist_ok_cons (t : SourceTrack) (ts : List SourceTrack) (u p : String)
    (search : Nat → SearchQuery → Except String (Option FoundTrack))
    (add : List String → Except String Unit) :
    handleMigratePlaylist (.ok (t :: ts)) (.ok (some u)) (.ok (some p)) search add =
      (if (migrateSearchLoop search (t :: ts) 0
            ⟨[.getUser, .createDest], [], [], []⟩).spotifyTrackIds.isEmpty then
        ((migrateSearchLoop search (t :: ts) 0 ⟨[.getUser, .createDest], [], [], []⟩).trace,
          .noMatches (migrateSearchLoop search (t :: ts) 0
            ⟨[.getUser, .createDest], [], [], []⟩).unmatchedTracks)
      else
        match add (migrateSearchLoop search (t :: ts) 0
            ⟨[.getUser, .createDest], [], [], []⟩).spotifyTrackIds with
        | .error e =>
          ((migrateSearchLoop search (t :: ts) 0
              ⟨[.getUser, .createDest], [], [], []⟩).trace ++ [.addTracks], .failed e)
        | .ok _ =>
          ((migrateSearchLoop search (t :: ts) 0
              ⟨[.getUser, .createDest], [], [], []⟩).trace ++ [.addTracks],
            .migrated (migrateSearchLoop search (t :: ts) 0
                ⟨[.getUser, .createDest], [], [], []⟩).spotifyTrackIds.length
              (migrateSearchLoop search (t :: ts) 0
                ⟨[.getUser, .createDest], [], [], []⟩).unmatchedTracks)) := rfl

/-- C8: on an empty fetched source list the migration returns immediately —
no user lookup, no destination creation, no search; on a non-empty source the
destination playlist is created eagerly, before any descriptor is resolved
(the call trace starts with `getUser, createDest` and everything after is a
search or the final add); and when zero descriptors match, the created
destination simply stays empty: the outcome reports the unmatched list and
`createDest` is still in the trace. -/
theorem handleMigratePlaylist_eager_creation :
    (∀ (getUser create : Except String (Option String))
       (search : Nat → SearchQuery → Except String (Option FoundTrack))
       (add : List String → Except String Unit),
      handleMigratePlaylist (.ok []) getUser create search add = ([], .emptySource)) ∧
    (∀ (tracks : List SourceTrack) (u p : String)
       (search : Nat → SearchQuery → Except String (Option FoundTrack))
       (add : List String → Except String Unit),
      tracks ≠ [] →
      ∃ tl, (handleMigratePlaylist (.ok tracks) (.ok (some u)) (.ok (some p)) search add).1 =
          MigrateEffect.getUser :: MigrateEffect.createDest :: tl ∧
        ∀ e ∈ tl, e = MigrateEffect.search ∨ e = MigrateEffect.addTracks) ∧
    (∀ (tracks : List SourceTrack) (u p : String)
       (search : Nat → SearchQuery → Except String (Option FoundTrack))
       (add : List String → Except String Unit),
      tracks ≠ [] →
      (migrateSearchLoop search tracks 0 ⟨[.getUser, .createDest], [], [], []⟩).spotifyTrackIds = [] →
      handleMigratePlaylist (.ok tracks) (.ok (some u)) (.ok (some p)) search add =
        ((migrateSearchLoop search tracks 0 ⟨[.getUser, .createDest], [], [], []⟩).trace,
          .noMatches (migrateSearchLoop search tracks 0
            ⟨[.getUser, .createDest], [], [], []⟩).unmatchedTracks) ∧
        MigrateEffect.createDest ∈
          (migrateSearchLoop search tracks 0 ⟨[.getUser, .createDest], [], [], []⟩).trace) := by
  refine ⟨?_, ?_, ?_⟩
  · intro getUser create search add
    rfl
  · intro tracks u p search add hne
    obtain ⟨t, ts, rfl⟩ : ∃ t ts, tracks = t :: ts := by
      cases tracks with
      | nil => exact absurd rfl hne
      | cons t ts => exact ⟨t, ts, rfl⟩
    obtain ⟨tl0, htl0, hall0⟩ :=
      migrateSearchLoop_trace search (t :: ts) 0 ⟨[.getUser, .createDest], [], [], []⟩
    rw [handleMigratePlaylist_ok_cons]
    by_cases hids :
        (migrateSearchLoop search (t :: ts) 0
          ⟨[.getUser, .createDest], [], [], []⟩).spotifyTrackIds.isEmpty = true
    · rw [if_pos hids]
      exact ⟨tl0, by simpa using htl0, fun e he => .inl (hall0 e he)⟩
    · rw [if_neg hids]
      cases hadd : add (migrateSearchLoop search (t :: ts) 0
          ⟨[.getUser, .createDest], [], [], []⟩).spotifyTrackIds with
      | error e =>
        simp only [hadd]
        refine ⟨tl0 ++ [MigrateEffect.addTracks], by rw [htl0]; simp, ?_⟩
        intro x hx
        rcases List.mem_append.mp hx with hx | hx
        · exact .inl (hall0 x hx)
        · simp only [List.mem_singleton] at hx
          exact .inr hx
      | ok uu =>
        simp only [hadd]
        refine ⟨tl0 ++ [MigrateEffect.addTracks], by rw [htl0]; simp, ?_⟩
        intro x hx
        rcases List.mem_append.mp hx with hx | hx
        · exact .inl (hall0 x hx)
        · simp only [List.mem_singleton] at hx
          exact .inr hx
  · intro tracks u p search add hne hids
    obtain ⟨t, ts, rfl⟩ : ∃ t ts, tracks = t :: ts := by
      cases tracks with
      | nil => exact absurd rfl hne
      | cons t ts => exact ⟨t, ts, rfl⟩
    obtain ⟨tl0, htl0, _⟩ :=
      migrateSearchLoop_trace search (t :: ts) 0 ⟨[.getUser, .createDest], [], [], []⟩
    constructor
    · rw [handleMigratePlaylist_ok_cons]
      rw [if_pos (by simp [hids])]
    · rw [htl0]
      simp

/-- Witness for `handleMigratePlaylist_eager_creation`: an empty source list
returns `emptySource` with an empty trace, and a one-track source whose only
search comes back empty still creates the destination playlist and reports
the track unmatched. -/
theorem handleMigratePlaylist_eager_creation_witness :
    handleMigratePlaylist (.ok []) (.ok (some "u")) (.ok (some "p")) exSearchNone exAddOk =
      ([], .emptySource) ∧
    (handleMigratePlaylist (.ok [exSrcTrack]) (.ok (some "u")) (.ok (some "p"))
        exSearchNone exAddOk =
      ((migrateSearchLoop exSearchNone [exSrcTrack] 0 ⟨[.getUser, .createDest], [], [], []⟩).trace,
        .noMatches (migrateSearchLoop exSearchNone [exSrcTrack] 0
          ⟨[.getUser, .createDest], [], [], []⟩).unmatchedTracks) ∧
      MigrateEffect.createDest ∈
        (migrateSearchLoop exSearchNone [exSrcTrack] 0
          ⟨[.getUser, .createDest], [], [], []⟩).trace) :=
  ⟨handleMigratePlaylist_eager_creation.1 (.ok (some "u")) (.ok (some "p")) exSearchNone exAddOk,
    handleMigratePlaylist_eager_creation.2.2 [exSrcTrack] "u" "p" exSearchNone exAddOk
      (by decide) (by decide)⟩

theorem shuffleWithMood_empty (m : String) (tr0 : List ShuffleEffect)
    (classify : List String → String → Except String ShuffleResp)
    (create : Except String (Option String)) (add : List String → Except String Unit) :
    shuffleWithMood m tr0 (.ok []) classify create add =
      if isValidMood m = false then
        (tr0, .failed ("Invalid mood determined or provided: " ++ m))
      else (tr0 ++ [.fetchTracks], .failed "Playlist is empty, cannot shuffle.") := by
  rw [shuffleWithMood]
  by_cases h : isValidMood m = false
  · rw [if_pos h, if_pos h]
  · rw [if_neg h, if_neg h]
    rfl

/-- C7: on a playlist whose fetched track list is empty, `handleShufflePlaylist`
always ends in a failed state, the classifier is never called, and no
destination playlist is ever created — whatever the mood input, the
prediction result, and the downstream environments. -/
theorem handleShufflePlaylist_empty_short_circuit :
    ∀ (mi : MoodInput) (predict : Except String String)
      (classify : List String → String → Except String ShuffleResp)
      (create : Except String (Option String)) (add : List String → Except String Unit),
      (∃ msg, (handleShufflePlaylist mi predict (.ok []) classify create add).2 = .failed msg) ∧
      ShuffleEffect.classify ∉ (handleShufflePlaylist mi predict (.ok []) classify create add).1 ∧
      ShuffleEffect.createDest ∉ (handleShufflePlaylist mi predict (.ok []) classify create add).1 := by
  intro mi predict classify create add
  cases mi with
  | missing => exact ⟨⟨_, rfl⟩, by simp [handleShufflePlaylist], by simp [handleShufflePlaylist]⟩
  | label m =>
    show
      (∃ msg, (shuffleWithMood m [] (.ok []) classify create add).2 = .failed msg) ∧
      ShuffleEffect.classify ∉ (shuffleWithMood m [] (.ok []) classify create add).1 ∧
      ShuffleEffect.createDest ∉ (shuffleWithMood m [] (.ok []) classify create add).1
    rw [shuffleWithMood_empty]
    by_cases h : isValidMood m = false
    · rw [if_pos h]
      exact ⟨⟨_, rfl⟩, by simp, by simp⟩
    · rw [if_neg h]
      exact ⟨⟨_, rfl⟩, by simp, by simp⟩
  | image d =>
    cases predict with
    | error e => exact ⟨⟨e, rfl⟩, by simp [handleShufflePlaylist], by simp [handleShufflePlaylist]⟩
    | ok m =>
      show
        (∃ msg, (shuffleWithMood m [.predictMood] (.ok []) classify create add).2 = .failed msg) ∧
        ShuffleEffect.classify ∉ (shuffleWithMood m [.predictMood] (.ok []) classify create add).1 ∧
        ShuffleEffect.createDest ∉ (shuffleWithMood m [.predictMood] (.ok []) classify create add).1
      rw [shuffleWithMood_empty]
      by_cases h : isValidMood m = false
      · rw [if_pos h]
        exact ⟨⟨_, rfl⟩, by simp, by simp⟩
      · rw [if_neg h]
        exact ⟨⟨_, rfl⟩, by simp, by simp⟩

theorem char_toLower_toUpper (c : Char) : c.toUpper.toLower = c.toLower := by
  by_cases hc : 97 ≤ c.toNat ∧ c.toNat ≤ 122
  · have key : ∀ n : Nat, 97 ≤ n → n ≤ 122 →
        (Char.ofNat n).toUpper.toLower = (Char.ofNat n).toLower := by
      intro n h1 h2
      interval_cases n <;> decide
    have h := key c.toNat hc.1 hc.2
    rwa [Char.ofNat_toNat] at h
  · have h : c.toUpper = c := by
      simp only [Char.toUpper]
      rw [if_neg (by omega)]
    rw [h]

theorem char_toLower_toLower (c : Char) : c.toLower.toLower = c.toLower := by
  by_cases hc : 65 ≤ c.toNat ∧ c.toNat ≤ 90
  · have key : ∀ n : Nat, 65 ≤ n → n ≤ 90 →
        (Char.ofNat n).toLower.toLower = (Char.ofNat n).toLower := by
      intro n h1 h2
      interval_cases n <;> decide
    have h := key c.toNat hc.1 hc.2
    rwa [Char.ofNat_toNat] at h
  · have h : c.toLower = c := by
      simp only [Char.toLower]
      rw [if_neg (by omega)]
    rw [h]
    exact h

theorem char_toUpper_toLower (c : Char) : c.toLower.toUpper = c.toUpper := by
  by_cases hc : 65 ≤ c.toNat ∧ c.toNat ≤ 90
  · have key : ∀ n : Nat, 65 ≤ n → n ≤ 90 →
        (Char.ofNat n).toLower.toUpper = (Char.ofNat n).toUpper := by
      intro n h1 h2
      interval_cases n <;> decide
    have h := key c.toNat hc.1 hc.2
    rwa [Char.ofNat_toNat] at h
  · have h : c.toLower = c := by
      simp only [Char.toLower]
      rw [if_neg (by omega)]
    rw [h]

theorem lowerStr_capitalizeMood (s : String) : lowerStr (capitalizeMood s) = lowerStr s := by
  obtain ⟨l⟩ := s
  cases l with
  | nil => rfl
  | cons c cs =>
    show (⟨(c.toUpper :: cs.map Char.toLower).map Char.toLower⟩ : String) =
      ⟨(c :: cs).map Char.toLower⟩
    rw [List.map_cons, List.map_cons, char_toLower_toUpper, List.map_map]
    congr 2
    exact List.map_congr_left (fun a _ => char_toLower_toLower a)

theorem capitalizeMood_lowerStr (s : String) : capitalizeMood (lowerStr s) = capitalizeMood s := by
  obtain ⟨l⟩ := s
  cases l with
  | nil => rfl
  | cons c cs =>
    show (⟨(c.toLower).toUpper :: (cs.map Char.toLower).map Char.toLower⟩ : String) =
      ⟨c.toUpper :: cs.map Char.toLower⟩
    rw [char_toUpper_toLower, List.map_map]
    congr 2
    exact List.map_congr_left (fun a _ => char_toLower_toLower a)

theorem isValidMood_iff (s : String) :
    isValidMood s = true ↔ lowerStr s ∈ ["angry", "calm", "excited", "happy", "sad"] := by
  constructor
  · intro h
    have hmem : capitalizeMood s ∈ validMoods := by
      simpa [isValidMood] using h
    simp only [validMoods, List.mem_cons, List.not_mem_nil, or_false] at hmem
    rcases hmem with h1 | h1 | h1 | h1 | h1 <;>
      (rw [← lowerStr_capitalizeMood s, h1]; decide)
  · intro h
    simp only [List.mem_cons, List.not_mem_nil, or_false] at h
    have hcap : capitalizeMood s ∈ validMoods := by
      rw [← capitalizeMood_lowerStr s]
      rcases h with h1 | h1 | h1 | h1 | h1 <;> (rw [h1]; decide)
    simpa [isValidMood] using hcap

/-- C10: the step-2 mood validation of `handleShufflePlaylist` normalizes its
input (first character uppercased, rest lowercased) before the membership
check, so a string is accepted exactly when its lowercasing is one of the five
labels in lower case — any casing of a label is accepted and treated as the
capitalized label (for example `hAPPY` becomes `Happy` and the orchestrator
proceeds past validation with it), and any other string is rejected. -/
theorem isValidMood_case_insensitive :
    (∀ s : String, isValidMood s = true ↔
      lowerStr s ∈ ["angry", "calm", "excited", "happy", "sad"]) ∧
    capitalizeMood "hAPPY" = "Happy" ∧ isValidMood "hAPPY" = true ∧
    isValidMood "joyful" = false ∧
    (∀ (classify : List String → String → Except String ShuffleResp)
       (create : Except String (Option String)) (add : List String → Except String Unit),
      shuffleWithMood "hAPPY" [] (.ok []) classify create add =
        ([ShuffleEffect.fetchTracks], .failed "Playlist is empty, cannot shuffle.")) := by
  refine ⟨isValidMood_iff, by decide, by decide, by decide, ?_⟩
  intro classify create add
  rw [shuffleWithMood_empty, if_neg (by decide)]
  rfl

end SmartShuffler
